import Mathlib

/-!
Verification of the trading-dashboard data generators.

The repository contains two variants of a mock trading-data generator
(`generateTradingData` in `src/App.tsx`): a time-series price walk with
open/close trade markers, and a bar-chart trade synthesizer, plus the
metrics computed by the `TradingChart` component (current/previous price,
percentage change, average funding).

The embedding below follows the TypeScript source line by line:
* JavaScript numbers are modelled as exact rationals; a division whose
  denominator is zero yields NaN or an infinity in JavaScript, which we
  model as `none` of an `Option` result (`jsDiv`).
* `Math.round x` is `⌊x + 1/2⌋` (round half towards positive infinity),
  `Math.floor` is `Int.floor`.
* Each call of `Math.random()` is one draw from an explicit stream of
  rationals, one named stream per call site, indexed by the loop counter;
  a draw is valid when it lies in `[0, 1)`.
* `Date` values are their millisecond timestamps, as integers; the single
  `now` anchor is a parameter. ISO-string formatting is injective on the
  millisecond value and is dropped; the bar-chart sort comparator reads
  the timestamp back out of the string, so it compares the same integers.
-/

/-- JavaScript `Math.round`: round half towards positive infinity. -/
def jsRound (x : ℚ) : ℚ := Int.floor (x + 1/2)

/-- `Math.round (x * 100) / 100`, the 2-decimal rounding used for stored prices. -/
def round2 (x : ℚ) : ℚ := jsRound (x * 100) / 100

/-- JavaScript division with a definedness flag: `a / b` is a finite number
exactly when `b ≠ 0`; `b = 0` gives NaN or an infinity, modelled as `none`. -/
def jsDiv (a b : ℚ) : Option ℚ := if b = 0 then none else some (a / b)

/-- The base-price lookup, from
`pair === "BTC-USDT" ? 43000 : pair === "ETH-USDT" ? 2500 : 180`
(identical in both variants). -/
def basePrice (pair : String) : ℚ :=
  if pair = "BTC-USDT" then 43000 else if pair = "ETH-USDT" then 2500 else 180

/-- One sample of the time-series variant: the object pushed onto `data`.
The display-only `time` string is omitted; `timestamp` is the millisecond
instant that the ISO string encodes. -/
structure PricePoint where
  timestamp : ℤ
  price : ℚ
  openTrade : Option ℚ
  closeTrade : Option ℚ
  volume : ℚ
deriving DecidableEq, Repr

/-- The `Math.random()` draws consumed by one call of the time-series
generator: one trend draw, and per-iteration draws for volatility, the
signed noise term, the two trade-marker tests and the volume. -/
structure TSDraws where
  trendR : ℚ
  volR : ℕ → ℚ
  noiseR : ℕ → ℚ
  openR : ℕ → ℚ
  closeR : ℕ → ℚ
  volumeR : ℕ → ℚ

/-- Every draw lies in `[0, 1)`, as `Math.random()` guarantees. -/
def TSDraws.Valid (d : TSDraws) : Prop :=
  (0 ≤ d.trendR ∧ d.trendR < 1) ∧
  ∀ i, (0 ≤ d.volR i ∧ d.volR i < 1) ∧ (0 ≤ d.noiseR i ∧ d.noiseR i < 1) ∧
    (0 ≤ d.openR i ∧ d.openR i < 1) ∧ (0 ≤ d.closeR i ∧ d.closeR i < 1) ∧
    (0 ≤ d.volumeR i ∧ d.volumeR i < 1)

/-- `const trend = (Math.random() - 0.5) * 0.02`. -/
def trendOf (d : TSDraws) : ℚ := (d.trendR - 1/2) * (2/100)

/-- `const volatility = 0.02 + Math.random() * 0.03`, at iteration `i`. -/
def volatility (d : TSDraws) (i : ℕ) : ℚ := 2/100 + d.volR i * (3/100)

/-- `const change = (Math.random() - 0.5) * volatility + trend`, at iteration `i`. -/
def change (d : TSDraws) (i : ℕ) : ℚ := (d.noiseR i - 1/2) * volatility d i + trendOf d

/-- The running `currentPrice` state after `n` loop iterations; the source
updates it by `currentPrice = currentPrice * (1 + change)` and never writes
a rounded value back into it. -/
def runningPrice (d : TSDraws) (base : ℚ) : ℕ → ℚ
  | 0 => base
  | n + 1 => runningPrice d base n * (1 + change d n)

/-- The object pushed at iteration `i`: timestamp `now - (99 - i) * 15min`,
the 2-decimal-rounded price, the unrounded `currentPrice` as either trade
marker when the corresponding `Math.random()` test fires, and a volume. -/
def mkPricePoint (d : TSDraws) (pair : String) (now : ℤ) (i : ℕ) : PricePoint :=
  let p := runningPrice d (basePrice pair) (i + 1)
  let volatilityFactor := |change d i| * 50
  { timestamp := now - (99 - (i : ℤ)) * (15 * 60 * 1000)
    price := round2 p
    openTrade := if d.openR i > 95/100 - volatilityFactor then some p else none
    closeTrade := if d.closeR i > 95/100 - volatilityFactor then some p else none
    volume := round2 (d.volumeR i * 1000 + 100) }

/-- The time-series `generateTradingData`: 100 points, oldest first. -/
def generateTradingData (d : TSDraws) (pair : String) (now : ℤ) : List PricePoint :=
  (List.range 100).map (mkPricePoint d pair now)

/-- JavaScript array indexing with a possibly negative index:
`data[i]` is `undefined` (here `none`) outside the bounds. -/
def jsGet (data : List PricePoint) (i : ℤ) : Option PricePoint :=
  if h : 0 ≤ i ∧ i.toNat < data.length then some (data.get ⟨i.toNat, h.2⟩) else none

/-- `data[data.length - 1]?.price || 0`. -/
def currentPrice (data : List PricePoint) : ℚ :=
  ((jsGet data ((data.length : ℤ) - 1)).map PricePoint.price).getD 0

/-- `data[data.length - 2]?.price || 0`. -/
def previousPrice (data : List PricePoint) : ℚ :=
  ((jsGet data ((data.length : ℤ) - 2)).map PricePoint.price).getD 0

/-- `const priceChange = currentPrice - previousPrice`. -/
def priceChange (data : List PricePoint) : ℚ := currentPrice data - previousPrice data

/-- `(priceChange / previousPrice) * 100`, with `none` for the NaN or
infinite result that JavaScript produces when `previousPrice` is zero. -/
def priceChangePercent (data : List PricePoint) : Option ℚ :=
  (jsDiv (priceChange data) (previousPrice data)).map (· * 100)

/-- The `'LONG' | 'SHORT'` union of the bar-chart variant. -/
inductive TradeType where
  | LONG : TradeType
  | SHORT : TradeType
deriving DecidableEq, Repr

/-- One element of the bar-chart `TradeBarData` interface; `startTime` and
`endTime` are the millisecond instants their ISO strings encode, and the
display-only `dateLabel` is omitted. -/
structure TradeBarData where
  id : String
  type : TradeType
  startTime : ℤ
  endTime : ℤ
  fundingTotal : ℚ
  periods : ℕ
  fee : ℚ
  startPrice : ℚ
  endPrice : ℚ
  duration : ℕ
  profitLoss : ℚ
  startDay : ℕ
deriving DecidableEq, Repr

/-- The `Math.random()` draws consumed by one call of the bar-chart
generator: one draw for the trade count and per-trade draws for the start
day, the duration, the side, the funding total and the two price jitters. -/
structure BarDraws where
  numR : ℚ
  startR : ℕ → ℚ
  durR : ℕ → ℚ
  typeR : ℕ → ℚ
  fundR : ℕ → ℚ
  startPriceR : ℕ → ℚ
  endPriceR : ℕ → ℚ

/-- Every draw lies in `[0, 1)`, as `Math.random()` guarantees. -/
def BarDraws.Valid (d : BarDraws) : Prop :=
  (0 ≤ d.numR ∧ d.numR < 1) ∧
  ∀ t, (0 ≤ d.startR t ∧ d.startR t < 1) ∧ (0 ≤ d.durR t ∧ d.durR t < 1) ∧
    (0 ≤ d.typeR t ∧ d.typeR t < 1) ∧ (0 ≤ d.fundR t ∧ d.fundR t < 1) ∧
    (0 ≤ d.startPriceR t ∧ d.startPriceR t < 1) ∧ (0 ≤ d.endPriceR t ∧ d.endPriceR t < 1)

/-- Milliseconds in one day, `24 * 60 * 60 * 1000`. -/
def msPerDay : ℤ := 24 * 60 * 60 * 1000

/-- `const numTrades = Math.floor(Math.random() * 5) + 8`. -/
def numTrades (d : BarDraws) : ℕ := (Int.floor (d.numR * 5)).toNat + 8

/-- `const startDayOffset = Math.floor(Math.random() * 25)`, for trade `t`. -/
def startDayOffset (d : BarDraws) (t : ℕ) : ℕ := (Int.floor (d.startR t * 25)).toNat

/-- `const durationDays = Math.floor(Math.random() * 7) + 1`, for trade `t`. -/
def durationDays (d : BarDraws) (t : ℕ) : ℕ := (Int.floor (d.durR t * 7)).toNat + 1

/-- The object pushed for trade `t` of the bar-chart variant:
start `thirtyDaysAgo + startDayOffset` days, end `durationDays` later,
funding in `[-1.5, 1.5)`, fee `1.20`, `periods = durationDays * 3`,
`profitLoss = |fundingTotal| * 20 + 20`, jittered start and end prices. -/
def mkTrade (d : BarDraws) (pair : String) (now : ℤ) (t : ℕ) : TradeBarData :=
  let base := basePrice pair
  let thirtyDaysAgo := now - 30 * msPerDay
  let startDate := thirtyDaysAgo + (startDayOffset d t : ℤ) * msPerDay
  let endDate := startDate + (durationDays d t : ℤ) * msPerDay
  let fundingTotal := (d.fundR t - 1/2) * 3
  { id := "trade-" ++ toString t
    type := if d.typeR t > 1/2 then TradeType.LONG else TradeType.SHORT
    startTime := startDate
    endTime := endDate
    fundingTotal := fundingTotal
    periods := durationDays d t * 3
    fee := 6/5
    startPrice := base + (d.startPriceR t - 1/2) * base * (1/10)
    endPrice := base + (d.endPriceR t - 1/2) * base * (1/10)
    duration := durationDays d t
    profitLoss := |fundingTotal| * 20 + 20
    startDay := startDayOffset d t }

/-- One step of the sort `trades.sort((a, b) => startTime a - startTime b)`:
insert `a` into an already sorted list, keeping `startTime` ascending. -/
def insertTrade (a : TradeBarData) : List TradeBarData → List TradeBarData
  | [] => [a]
  | b :: l => if a.startTime ≤ b.startTime then a :: b :: l else b :: insertTrade a l

/-- Sorting by `startTime` ascending, as the comparator
`(a, b) => new Date(a.startTime).getTime() - new Date(b.startTime).getTime()`
specifies. -/
def sortTrades : List TradeBarData → List TradeBarData
  | [] => []
  | a :: l => insertTrade a (sortTrades l)

/-- The bar-chart `generateTradingData`: `numTrades` trades, sorted by
start date before being returned. -/
def generateBarData (d : BarDraws) (pair : String) (now : ℤ) : List TradeBarData :=
  sortTrades ((List.range (numTrades d)).map (mkTrade d pair now))

/-- `trades.reduce((sum, t) => sum + t.fundingTotal, 0) / trades.length`,
with `none` for the NaN that JavaScript produces on an empty list. -/
def avgFunding (trades : List TradeBarData) : Option ℚ :=
  jsDiv (trades.foldl (fun s t => s + t.fundingTotal) 0) (trades.length : ℚ)

/-- A concrete valid draw assignment: every `Math.random()` call returns `1/2`. -/
def halfTS : TSDraws :=
  { trendR := 1/2, volR := fun _ => 1/2, noiseR := fun _ => 1/2,
    openR := fun _ => 1/2, closeR := fun _ => 1/2, volumeR := fun _ => 1/2 }

/-- A concrete valid draw assignment under which iteration 0 sets an open
marker: zero trend, zero volatility draw, noise draw `9/16` (so the price
moves by the factor `1 + 1/800`) and an open-marker draw of `9/10`. -/
def cexTS : TSDraws :=
  { trendR := 1/2, volR := fun _ => 0, noiseR := fun _ => 9/16,
    openR := fun _ => 9/10, closeR := fun _ => 0, volumeR := fun _ => 1/2 }

/-- A concrete valid draw assignment for the bar-chart generator: every
`Math.random()` call returns `1/2`. -/
def halfBar : BarDraws :=
  { numR := 1/2, startR := fun _ => 1/2, durR := fun _ => 1/2, typeR := fun _ => 1/2,
    fundR := fun _ => 1/2, startPriceR := fun _ => 1/2, endPriceR := fun _ => 1/2 }

/-- A concrete valid draw assignment taking the start-day and duration draws
to `0.99`, which gives `startDayOffset = 24` and `durationDays = 7`. -/
def cexBar : BarDraws :=
  { numR := 0, startR := fun _ => 99/100, durR := fun _ => 99/100, typeR := fun _ => 1/2,
    fundR := fun _ => 1/2, startPriceR := fun _ => 1/2, endPriceR := fun _ => 1/2 }

/-- A concrete valid draw assignment giving trade 0 the funding total `0`
and every later trade the funding total `3/4`. -/
def wBar : BarDraws :=
  { numR := 0, startR := fun _ => 0, durR := fun _ => 0, typeR := fun _ => 0,
    fundR := fun t => if t = 0 then 1/2 else 3/4, startPriceR := fun _ => 0,
    endPriceR := fun _ => 0 }

/-- A one-element price sequence, for exercising the aggregator on fewer
than two points. -/
def onePointData : List PricePoint :=
  [{ timestamp := 0, price := 100, openTrade := none, closeTrade := none, volume := 0 }]

theorem jsDiv_eq_none (a b : ℚ) : jsDiv a b = none ↔ b = 0 := by
  unfold jsDiv
  split <;> simp_all

theorem basePrice_ge (pair : String) : (180 : ℚ) ≤ basePrice pair := by
  unfold basePrice
  split_ifs <;> norm_num

theorem getElem?_generateTradingData (d : TSDraws) (pair : String) (now : ℤ) (i : ℕ)
    (h : i < 100) :
    (generateTradingData d pair now)[i]? = some (mkPricePoint d pair now i) := by
  simp [generateTradingData, List.getElem?_map, List.getElem?_range, h]

theorem length_generateTradingData (d : TSDraws) (pair : String) (now : ℤ) :
    (generateTradingData d pair now).length = 100 := by
  simp [generateTradingData]

theorem getElem?_generateTradingData_iff (d : TSDraws) (pair : String) (now : ℤ) (i : ℕ)
    (pt : PricePoint) :
    (generateTradingData d pair now)[i]? = some pt ↔
      i < 100 ∧ pt = mkPricePoint d pair now i := by
  by_cases h : i < 100
  · rw [getElem?_generateTradingData d pair now i h]
    simp [h, eq_comm]
  · rw [List.getElem?_eq_none]
    · simp [h]
    · rw [length_generateTradingData]
      omega

theorem mem_generateTradingData_of_lt (d : TSDraws) (pair : String) (now : ℤ) (i : ℕ)
    (h : i < 100) : mkPricePoint d pair now i ∈ generateTradingData d pair now :=
  List.mem_map_of_mem _ (List.mem_range.mpr h)

theorem mem_generateTradingData_iff (d : TSDraws) (pair : String) (now : ℤ)
    (pt : PricePoint) :
    pt ∈ generateTradingData d pair now ↔ ∃ i < 100, pt = mkPricePoint d pair now i := by
  simp only [generateTradingData, List.mem_map, List.mem_range]
  constructor
  · rintro ⟨i, hi, rfl⟩
    exact ⟨i, hi, rfl⟩
  · rintro ⟨i, hi, rfl⟩
    exact ⟨i, hi, rfl⟩

theorem mem_insertTrade (x a : TradeBarData) (l : List TradeBarData) :
    x ∈ insertTrade a l ↔ x = a ∨ x ∈ l := by
  induction l with
  | nil => simp [insertTrade]
  | cons b t ih =>
    rw [insertTrade]
    split
    · simp [List.mem_cons]
    · simp only [List.mem_cons, ih]
      tauto

theorem length_insertTrade (a : TradeBarData) (l : List TradeBarData) :
    (insertTrade a l).length = l.length + 1 := by
  induction l with
  | nil => rfl
  | cons b t ih =>
    rw [insertTrade]
    split
    · simp
    · simp [ih]

theorem mem_sortTrades (x : TradeBarData) (l : List TradeBarData) :
    x ∈ sortTrades l ↔ x ∈ l := by
  induction l with
  | nil => simp [sortTrades]
  | cons b t ih =>
    rw [sortTrades, mem_insertTrade]
    simp [ih]

theorem length_sortTrades (l : List TradeBarData) :
    (sortTrades l).length = l.length := by
  induction l with
  | nil => rfl
  | cons b t ih =>
    rw [sortTrades, length_insertTrade, ih]
    rfl

theorem pairwise_insertTrade (a : TradeBarData) (l : List TradeBarData)
    (h : l.Pairwise fun x y => x.startTime ≤ y.startTime) :
    (insertTrade a l).Pairwise fun x y => x.startTime ≤ y.startTime := by
  induction l with
  | nil => simp [insertTrade]
  | cons b t ih =>
    rw [insertTrade]
    rw [List.pairwise_cons] at h
    split
    · rename_i hab
      rw [List.pairwise_cons]
      refine ⟨?_, List.pairwise_cons.mpr h⟩
      intro x hx
      rcases List.mem_cons.mp hx with rfl | hx
      · exact hab
      · exact le_trans hab (h.1 x hx)
    · rename_i hab
      rw [List.pairwise_cons]
      refine ⟨?_, ih h.2⟩
      intro x hx
      rcases (mem_insertTrade x a t).mp hx with rfl | hx
      · exact le_of_not_le hab
      · exact h.1 x hx

theorem pairwise_sortTrades (l : List TradeBarData) :
    (sortTrades l).Pairwise fun x y => x.startTime ≤ y.startTime := by
  induction l with
  | nil => simp [sortTrades]
  | cons b t ih => exact pairwise_insertTrade b (sortTrades t) ih

theorem mem_generateBarData_of_lt (d : BarDraws) (pair : String) (now : ℤ) (k : ℕ)
    (h : k < numTrades d) : mkTrade d pair now k ∈ generateBarData d pair now := by
  rw [generateBarData, mem_sortTrades]
  exact List.mem_map_of_mem _ (List.mem_range.mpr h)

theorem mem_generateBarData_iff (d : BarDraws) (pair : String) (now : ℤ)
    (t : TradeBarData) :
    t ∈ generateBarData d pair now ↔ ∃ k < numTrades d, t = mkTrade d pair now k := by
  rw [generateBarData, mem_sortTrades]
  simp only [List.mem_map, List.mem_range]
  constructor
  · rintro ⟨k, hk, rfl⟩
    exact ⟨k, hk, rfl⟩
  · rintro ⟨k, hk, rfl⟩
    exact ⟨k, hk, rfl⟩

theorem length_generateBarData (d : BarDraws) (pair : String) (now : ℤ) :
    (generateBarData d pair now).length = numTrades d := by
  rw [generateBarData, length_sortTrades]
  simp

theorem volatility_bounds (d : TSDraws) (hv : d.Valid) (i : ℕ) :
    (2/100 : ℚ) ≤ volatility d i ∧ volatility d i ≤ 5/100 := by
  obtain ⟨-, h⟩ := hv
  obtain ⟨⟨hv0, hv1⟩, -⟩ := h i
  unfold volatility
  constructor <;> nlinarith

theorem one_add_change_lower (d : TSDraws) (hv : d.Valid) (i : ℕ) :
    (193/200 : ℚ) ≤ 1 + change d i := by
  obtain ⟨hb, hs⟩ := hv
  obtain ⟨⟨ht0, ht1⟩⟩ := And.intro hb trivial
  obtain ⟨⟨hv0, hv1⟩, ⟨hn0, hn1⟩, -⟩ := hs i
  have hvol := volatility_bounds d ⟨hb, hs⟩ i
  unfold change trendOf
  nlinarith [mul_nonneg hn0 (le_trans (by norm_num) hvol.1), hvol.1, hvol.2]

theorem runningPrice_lower (d : TSDraws) (hv : d.Valid) (base : ℚ) (hb : 0 ≤ base) :
    ∀ n : ℕ, base * (193/200) ^ n ≤ runningPrice d base n := by
  intro n
  induction n with
  | zero => simp [runningPrice]
  | succ n ih =>
    have hpow : (0 : ℚ) ≤ base * (193/200) ^ n :=
      mul_nonneg hb (pow_nonneg (by norm_num) n)
    have hrun : (0 : ℚ) ≤ runningPrice d base n := le_trans hpow ih
    have hch := one_add_change_lower d hv n
    calc base * (193/200) ^ (n + 1) = (base * (193/200) ^ n) * (193/200) := by ring
      _ ≤ runningPrice d base n * (193/200) :=
          mul_le_mul_of_nonneg_right ih (by norm_num)
      _ ≤ runningPrice d base n * (1 + change d n) :=
          mul_le_mul_of_nonneg_left hch hrun
      _ = runningPrice d base (n + 1) := (by rfl)

theorem runningPrice_pos (d : TSDraws) (hv : d.Valid) (pair : String) (n : ℕ) :
    0 < runningPrice d (basePrice pair) n := by
  have hb : (180 : ℚ) ≤ basePrice pair := basePrice_ge pair
  have h := runningPrice_lower d hv (basePrice pair) (by linarith) n
  have hpow : (0 : ℚ) < basePrice pair * (193/200) ^ n :=
    mul_pos (by linarith) (pow_pos (by norm_num) n)
  linarith

theorem runningPrice_ge_threshold (d : TSDraws) (hv : d.Valid) (pair : String) (n : ℕ)
    (hn : n ≤ 100) : (1/200 : ℚ) ≤ runningPrice d (basePrice pair) n := by
  have hb : (180 : ℚ) ≤ basePrice pair := basePrice_ge pair
  have h1 := runningPrice_lower d hv (basePrice pair) (by linarith) n
  have h2 : ((193 : ℚ)/200) ^ 100 ≤ ((193 : ℚ)/200) ^ n :=
    pow_le_pow_of_le_one (by norm_num) (by norm_num) hn
  have h3 : (1/200 : ℚ) ≤ 180 * (193/200) ^ 100 := by norm_num
  have h4 : (180 : ℚ) * (193/200) ^ n ≤ basePrice pair * (193/200) ^ n :=
    mul_le_mul_of_nonneg_right hb (pow_nonneg (by norm_num) n)
  have h5 : (180 : ℚ) * (193/200) ^ 100 ≤ 180 * (193/200) ^ n := by nlinarith
  linarith

theorem round2_pos (x : ℚ) (hx : (1/200 : ℚ) ≤ x) : 0 < round2 x := by
  unfold round2 jsRound
  have h1 : (1 : ℚ) ≤ x * 100 + 1/2 := by linarith
  have h2 : (1 : ℤ) ≤ Int.floor (x * 100 + 1/2) := by
    rw [Int.le_floor]
    exact_mod_cast h1
  have h3 : (1 : ℚ) ≤ (Int.floor (x * 100 + 1/2) : ℚ) := by exact_mod_cast h2
  positivity

theorem startDayOffset_le (d : BarDraws) (hv : d.Valid) (t : ℕ) :
    startDayOffset d t ≤ 24 := by
  obtain ⟨-, h⟩ := hv
  obtain ⟨⟨hs0, hs1⟩, -⟩ := h t
  unfold startDayOffset
  have h1 : Int.floor (d.startR t * 25) ≤ 24 := by
    have : d.startR t * 25 < 25 := by nlinarith
    have h2 : Int.floor (d.startR t * 25) < 25 := by
      rw [Int.floor_lt]
      exact_mod_cast this
    omega
  omega

theorem durationDays_le (d : BarDraws) (hv : d.Valid) (t : ℕ) :
    durationDays d t ≤ 7 := by
  obtain ⟨-, h⟩ := hv
  obtain ⟨-, ⟨hd0, hd1⟩, -⟩ := h t
  unfold durationDays
  have h1 : Int.floor (d.durR t * 7) ≤ 6 := by
    have : d.durR t * 7 < 7 := by nlinarith
    have h2 : Int.floor (d.durR t * 7) < 7 := by
      rw [Int.floor_lt]
      exact_mod_cast this
    omega
  omega

theorem one_le_durationDays (d : BarDraws) (t : ℕ) : 1 ≤ durationDays d t := by
  unfold durationDays
  omega

/-- C1 counterexample: the aggregator divisions are not guarded. On an
empty trade set the average funding is `sum / 0`, and on a one-point price
sequence the previous price is the fallback `0`, so the percentage change
divides by zero; both produce an invalid numeric result (modelled `none`),
not a defined value. -/
theorem aggregator_unguarded_cex :
    avgFunding [] = none ∧ priceChangePercent onePointData = none := by
  constructor
  · simp [avgFunding, jsDiv]
  · have hprev : previousPrice onePointData = 0 := by
      simp [previousPrice, jsGet, onePointData]
    simp [priceChangePercent, hprev, jsDiv]

/-- C1 amended: no explicit division guard exists; the average funding is
an invalid numeric result (NaN) exactly on an empty trade set, and the
percentage change is an invalid numeric result exactly when the previous
price is zero, as on a price sequence with fewer than two points. -/
theorem aggregator_definedness (trades : List TradeBarData) (data : List PricePoint) :
    (avgFunding trades = none ↔ trades = []) ∧
    (priceChangePercent data = none ↔ previousPrice data = 0) := by
  constructor
  · rw [avgFunding, jsDiv_eq_none]
    simp [List.length_eq_zero]
  · rw [priceChangePercent]
    rw [Option.map_eq_none']
    exact jsDiv_eq_none _ _

/-- C5: every generated bar-chart trade has a strictly smaller start than
end time, `periods` equal to three times its duration in days and hence
positive, and the constant positive fee `1.20`. -/
theorem barTrade_invariants (d : BarDraws) (pair : String) (now : ℤ) :
    ∀ t ∈ generateBarData d pair now,
      t.startTime < t.endTime ∧ t.periods = t.duration * 3 ∧ 0 < t.periods ∧
      t.fee = 6/5 ∧ (0 : ℚ) < t.fee := by
  intro t ht
  obtain ⟨k, hk, rfl⟩ := (mem_generateBarData_iff d pair now t).mp ht
  have hdur := one_le_durationDays d k
  refine ⟨?_, rfl, ?_, rfl, ?_⟩
  · simp only [mkTrade, msPerDay]
    omega
  · simp only [mkTrade]
    omega
  · rw [show (mkTrade d pair now k).fee = 6/5 from rfl]
    norm_num


/-- C5 witness: the invariants hold at a concrete generated trade. -/
theorem barTrade_invariants_witness :
    (mkTrade halfBar "BTC-USDT" 0 0).startTime < (mkTrade halfBar "BTC-USDT" 0 0).endTime ∧
    (mkTrade halfBar "BTC-USDT" 0 0).periods = (mkTrade halfBar "BTC-USDT" 0 0).duration * 3 ∧
    0 < (mkTrade halfBar "BTC-USDT" 0 0).periods ∧
    (mkTrade halfBar "BTC-USDT" 0 0).fee = 6/5 ∧ (0 : ℚ) < (mkTrade halfBar "BTC-USDT" 0 0).fee :=
  barTrade_invariants halfBar "BTC-USDT" 0 _
    (mem_generateBarData_of_lt halfBar "BTC-USDT" 0 0 (by norm_num [numTrades, halfBar]))

/-- C6: the list returned by the bar-chart generator is sorted by start
time ascending: every element is bounded by all later ones, and in
particular every adjacent pair is ordered. -/
theorem generateBarData_sorted (d : BarDraws) (pair : String) (now : ℤ) :
    (generateBarData d pair now).Pairwise fun a b => a.startTime ≤ b.startTime :=
  pairwise_sortTrades _

/-- C7: `profitLoss` of every generated trade equals
`|fundingTotal| * 20 + 20`, hence is at least `20` and strictly positive,
and is strictly monotone in the absolute funding magnitude. -/
theorem profitLoss_monotone (d : BarDraws) (pair : String) (now : ℤ) :
    (∀ t ∈ generateBarData d pair now,
      t.profitLoss = |t.fundingTotal| * 20 + 20 ∧ 20 ≤ t.profitLoss ∧ 0 < t.profitLoss) ∧
    ∀ t1 ∈ generateBarData d pair now, ∀ t2 ∈ generateBarData d pair now,
      |t1.fundingTotal| < |t2.fundingTotal| → t1.profitLoss < t2.profitLoss := by
  have key : ∀ t ∈ generateBarData d pair now,
      t.profitLoss = |t.fundingTotal| * 20 + 20 := by
    intro t ht
    obtain ⟨k, hk, rfl⟩ := (mem_generateBarData_iff d pair now t).mp ht
    rfl
  constructor
  · intro t ht
    have h := key t ht
    have habs : (0 : ℚ) ≤ |t.fundingTotal| := abs_nonneg _
    exact ⟨h, by linarith, by linarith⟩
  · intro t1 h1 t2 h2 hlt
    rw [key t1 h1, key t2 h2]
    linarith

/-- C7 witness: two concrete generated trades with distinct absolute
funding magnitudes have strictly ordered profit and loss scales. -/
theorem profitLoss_monotone_witness :
    (mkTrade wBar "BTC-USDT" 0 0).profitLoss < (mkTrade wBar "BTC-USDT" 0 1).profitLoss :=
  (profitLoss_monotone wBar "BTC-USDT" 0).2 _
    (mem_generateBarData_of_lt wBar "BTC-USDT" 0 0 (by norm_num [numTrades, wBar]))
    _ (mem_generateBarData_of_lt wBar "BTC-USDT" 0 1 (by norm_num [numTrades, wBar]))
    (by norm_num [mkTrade, wBar])

/-- C10: the base-price lookup is total: every pair other than the two
known ones maps to the fallback 180, and both generators still produce
well-formed output (100 points, at least 8 trades) for such a pair. -/
theorem basePrice_total (pair : String) (d : TSDraws) (b : BarDraws) (now : ℤ)
    (h1 : pair ≠ "BTC-USDT") (h2 : pair ≠ "ETH-USDT") :
    basePrice pair = 180 ∧ basePrice "BTC-USDT" = 43000 ∧ basePrice "ETH-USDT" = 2500 ∧
    (generateTradingData d pair now).length = 100 ∧
    8 ≤ (generateBarData b pair now).length := by
  refine ⟨?_, rfl, rfl, length_generateTradingData d pair now, ?_⟩
  · rw [basePrice, if_neg h1, if_neg h2]
  · rw [length_generateBarData, numTrades]
    omega

/-- C10 witness: the fallback applies to the concrete unknown pair
DOGE-USDT, not only to XMR-USDT. -/
theorem basePrice_total_witness :
    basePrice "DOGE-USDT" = 180 ∧ basePrice "BTC-USDT" = 43000 ∧
    basePrice "ETH-USDT" = 2500 ∧
    (generateTradingData halfTS "DOGE-USDT" 0).length = 100 ∧
    8 ≤ (generateBarData halfBar "DOGE-USDT" 0).length :=
  basePrice_total "DOGE-USDT" halfTS halfBar 0 (by decide) (by decide)

/-- C3: for every pair the time-series generator produces exactly 100
points; the point at index `i` has timestamp `now - (99 - i) * 15min`, so
timestamps are strictly increasing with constant 15-minute spacing, the
last point is the `now` anchor, and every stored price is an exact
multiple of `1/100`. -/
theorem generateTradingData_shape (d : TSDraws) (pair : String) (now : ℤ) :
    (generateTradingData d pair now).length = 100 ∧
    (∀ i : ℕ, i < 100 → ((generateTradingData d pair now)[i]?).map PricePoint.timestamp =
      some (now - (99 - (i : ℤ)) * (15 * 60 * 1000))) ∧
    (∀ i : ℕ, ∀ p q : PricePoint, (generateTradingData d pair now)[i]? = some p →
      (generateTradingData d pair now)[i + 1]? = some q →
      p.timestamp < q.timestamp ∧ q.timestamp = p.timestamp + 15 * 60 * 1000) ∧
    ((generateTradingData d pair now)[99]?).map PricePoint.timestamp = some now ∧
    (∀ p ∈ generateTradingData d pair now, ∃ k : ℤ, p.price = (k : ℚ) / 100) := by
  refine ⟨length_generateTradingData d pair now, ?_, ?_, ?_, ?_⟩
  · intro i hi
    rw [getElem?_generateTradingData d pair now i hi]
    rfl
  · intro i p q hp hq
    obtain ⟨hi, rfl⟩ := (getElem?_generateTradingData_iff d pair now i p).mp hp
    obtain ⟨hi1, rfl⟩ := (getElem?_generateTradingData_iff d pair now (i + 1) q).mp hq
    simp only [mkPricePoint]
    push_cast
    constructor <;> omega
  · rw [getElem?_generateTradingData d pair now 99 (by norm_num)]
    simp [mkPricePoint]
  · intro p hp
    obtain ⟨i, hi, rfl⟩ := (mem_generateTradingData_iff d pair now p).mp hp
    exact ⟨Int.floor (runningPrice d (basePrice pair) (i + 1) * 100 + 1/2), rfl⟩

/-- C3 witness: the timestamp formula at a concrete input and index. -/
theorem generateTradingData_shape_witness :
    ((generateTradingData halfTS "ETH-USDT" 0)[0]?).map PricePoint.timestamp =
      some (0 - (99 - (0 : ℤ)) * (15 * 60 * 1000)) :=
  (generateTradingData_shape halfTS "ETH-USDT" 0).2.1 0 (by norm_num)

/-- C9: the running price state is kept at full precision: after `n` steps
it equals the base price times the product of all step factors, and the
stored price at index `i` is the 2-decimal rounding of that unrounded
product; no rounded value is fed back into the state. -/
theorem runningPrice_unrounded (d : TSDraws) (pair : String) (now : ℤ) :
    (∀ n : ℕ, runningPrice d (basePrice pair) n =
      basePrice pair * ∏ j ∈ Finset.range n, (1 + change d j)) ∧
    ∀ i : ℕ, ∀ pt : PricePoint, (generateTradingData d pair now)[i]? = some pt →
      pt.price = round2 (basePrice pair * ∏ j ∈ Finset.range (i + 1), (1 + change d j)) := by
  have hprod : ∀ n : ℕ, runningPrice d (basePrice pair) n =
      basePrice pair * ∏ j ∈ Finset.range n, (1 + change d j) := by
    intro n
    induction n with
    | zero => simp [runningPrice]
    | succ n ih =>
      rw [show runningPrice d (basePrice pair) (n + 1) =
        runningPrice d (basePrice pair) n * (1 + change d n) from rfl, ih,
        Finset.prod_range_succ]
      ring
  refine ⟨hprod, ?_⟩
  intro i pt hpt
  obtain ⟨hi, rfl⟩ := (getElem?_generateTradingData_iff d pair now i pt).mp hpt
  show round2 (runningPrice d (basePrice pair) (i + 1)) = _
  rw [hprod (i + 1)]

/-- C9 witness: the stored price at a concrete input and index equals the
rounding of the full-precision product. -/
theorem runningPrice_unrounded_witness :
    (mkPricePoint halfTS "XMR-USDT" 0 0).price =
      round2 (basePrice "XMR-USDT" * ∏ j ∈ Finset.range (0 + 1), (1 + change halfTS j)) :=
  (runningPrice_unrounded halfTS "XMR-USDT" 0).2 0 _
    (getElem?_generateTradingData halfTS "XMR-USDT" 0 0 (by norm_num))

/-- C2 amended: a set open (or close) marker carries the unrounded running
price of its point, of which the stored `price` field is the 2-decimal
rounding; the marker equals the stored price only when the running price
already has at most two decimals. -/
theorem tradeMarker_eq_runningPrice (d : TSDraws) (pair : String) (now : ℤ) (i : ℕ)
    (pt : PricePoint) (hpt : (generateTradingData d pair now)[i]? = some pt) :
    (∀ v, pt.openTrade = some v →
      v = runningPrice d (basePrice pair) (i + 1) ∧ pt.price = round2 v) ∧
    ∀ v, pt.closeTrade = some v →
      v = runningPrice d (basePrice pair) (i + 1) ∧ pt.price = round2 v := by
  obtain ⟨hi, rfl⟩ := (getElem?_generateTradingData_iff d pair now i pt).mp hpt
  constructor
  · intro v hv
    rw [show (mkPricePoint d pair now i).openTrade =
      (if d.openR i > 95/100 - |change d i| * 50
        then some (runningPrice d (basePrice pair) (i + 1)) else none) from rfl] at hv
    split at hv
    · cases hv
      exact ⟨rfl, rfl⟩
    · cases hv
  · intro v hv
    rw [show (mkPricePoint d pair now i).closeTrade =
      (if d.closeR i > 95/100 - |change d i| * 50
        then some (runningPrice d (basePrice pair) (i + 1)) else none) from rfl] at hv
    split at hv
    · cases hv
      exact ⟨rfl, rfl⟩
    · cases hv

/-- C2 counterexample: at the concrete draw assignment `cexTS` the first
point of the XMR-USDT series has its open marker set to the unrounded
running price `180.225`, while its stored price field is the rounded
`180.23`, so a set open marker differs from the stored price field. -/
theorem tradeMarker_ne_price_cex :
    ∃ pt : PricePoint, (generateTradingData cexTS "XMR-USDT" 0)[0]? = some pt ∧
      pt.openTrade = some (7209/40) ∧ pt.price = 18023/100 ∧
      (7209/40 : ℚ) ≠ 18023/100 := by
  refine ⟨mkPricePoint cexTS "XMR-USDT" 0 0,
    getElem?_generateTradingData cexTS "XMR-USDT" 0 0 (by norm_num), ?_, ?_, by norm_num⟩
  · rw [show (mkPricePoint cexTS "XMR-USDT" 0 0).openTrade =
      (if cexTS.openR 0 > 95/100 - |change cexTS 0| * 50
        then some (runningPrice cexTS (basePrice "XMR-USDT") 1) else none) from rfl, if_pos]
    · norm_num [runningPrice, change, cexTS, volatility, trendOf,
        show basePrice "XMR-USDT" = 180 from rfl]
    · norm_num [change, cexTS, volatility, trendOf, abs_of_pos]
  · show round2 (runningPrice cexTS (basePrice "XMR-USDT") 1) = 18023/100
    norm_num [runningPrice, change, cexTS, volatility, trendOf, round2, jsRound,
      show basePrice "XMR-USDT" = 180 from rfl]

/-- C2 witness: the amended statement evaluated at the concrete draw
assignment, index 0 and marker value 180.225. -/
theorem tradeMarker_eq_runningPrice_witness :
    (7209/40 : ℚ) = runningPrice cexTS (basePrice "XMR-USDT") (0 + 1) ∧
    (mkPricePoint cexTS "XMR-USDT" 0 0).price = round2 (7209/40) :=
  (tradeMarker_eq_runningPrice cexTS "XMR-USDT" 0 0 _
    (getElem?_generateTradingData cexTS "XMR-USDT" 0 0 (by norm_num))).1 _
    (by rw [show (mkPricePoint cexTS "XMR-USDT" 0 0).openTrade =
        (if cexTS.openR 0 > 95/100 - |change cexTS 0| * 50
          then some (runningPrice cexTS (basePrice "XMR-USDT") 1) else none) from rfl, if_pos]
        · norm_num [runningPrice, change, cexTS, volatility, trendOf,
            show basePrice "XMR-USDT" = 180 from rfl]
        · norm_num [change, cexTS, volatility, trendOf, abs_of_pos])

/-- C4 counterexample: with start-day draw 0.99 (offset 24) and duration
draw 0.99 (7 days), a generated trade has `endTime = now + 1 day`
(86400000 ms past the `now = 0` upper bound of the 30-day window), so
`endTime` can exceed the window. -/
theorem barTrade_exceeds_window_cex :
    ∃ t ∈ generateBarData cexBar "BTC-USDT" 0, t.endTime = 86400000 ∧ (0 : ℤ) < t.endTime := by
  refine ⟨mkTrade cexBar "BTC-USDT" 0 0,
    mem_generateBarData_of_lt cexBar "BTC-USDT" 0 0 (by norm_num [numTrades, cexBar]), ?_, ?_⟩
  · show (0 : ℤ) - 30 * msPerDay + (startDayOffset cexBar 0 : ℤ) * msPerDay +
      (durationDays cexBar 0 : ℤ) * msPerDay = 86400000
    norm_num [startDayOffset, durationDays, cexBar, msPerDay, Int.toNat_ofNat]
  · show (0 : ℤ) < (0 : ℤ) - 30 * msPerDay + (startDayOffset cexBar 0 : ℤ) * msPerDay +
      (durationDays cexBar 0 : ℤ) * msPerDay
    norm_num [startDayOffset, durationDays, cexBar, msPerDay, Int.toNat_ofNat]

/-- C4 amended: for valid draws every trade starts inside the 30-day
window (between `now - 30` and `now - 6` days), but its end may overrun
the upper bound `now` by up to one day: `endTime ≤ now + 1 day`, and
nothing stronger holds. -/
theorem barTrade_window (d : BarDraws) (pair : String) (now : ℤ) (hv : d.Valid) :
    ∀ t ∈ generateBarData d pair now,
      now - 30 * msPerDay ≤ t.startTime ∧ t.startTime ≤ now - 6 * msPerDay ∧
      t.endTime ≤ now + msPerDay := by
  intro t ht
  obtain ⟨k, hk, rfl⟩ := (mem_generateBarData_iff d pair now t).mp ht
  have hoff : startDayOffset d k ≤ 24 := startDayOffset_le d hv k
  have hdur : durationDays d k ≤ 7 := durationDays_le d hv k
  refine ⟨?_, ?_, ?_⟩
  · show now - 30 * msPerDay ≤ now - 30 * msPerDay + (startDayOffset d k : ℤ) * msPerDay
    have : (0 : ℤ) ≤ (startDayOffset d k : ℤ) * msPerDay :=
      mul_nonneg (Int.natCast_nonneg _) (by norm_num [msPerDay])
    linarith
  · show now - 30 * msPerDay + (startDayOffset d k : ℤ) * msPerDay ≤ now - 6 * msPerDay
    have h1 : (startDayOffset d k : ℤ) * msPerDay ≤ 24 * msPerDay := by
      have : (startDayOffset d k : ℤ) ≤ 24 := by exact_mod_cast hoff
      have hms : (0 : ℤ) ≤ msPerDay := by norm_num [msPerDay]
      exact mul_le_mul_of_nonneg_right this hms
    simp only [msPerDay] at h1 ⊢
    omega
  · show now - 30 * msPerDay + (startDayOffset d k : ℤ) * msPerDay +
      (durationDays d k : ℤ) * msPerDay ≤ now + msPerDay
    have h1 : (startDayOffset d k : ℤ) * msPerDay ≤ 24 * msPerDay := by
      have : (startDayOffset d k : ℤ) ≤ 24 := by exact_mod_cast hoff
      exact mul_le_mul_of_nonneg_right this (by norm_num [msPerDay])
    have h2 : (durationDays d k : ℤ) * msPerDay ≤ 7 * msPerDay := by
      have : (durationDays d k : ℤ) ≤ 7 := by exact_mod_cast hdur
      exact mul_le_mul_of_nonneg_right this (by norm_num [msPerDay])
    simp only [msPerDay] at h1 h2 ⊢
    omega

/-- C4 witness: the amended window bounds at a concrete valid draw
assignment and trade. -/
theorem barTrade_window_witness :
    (0 : ℤ) - 30 * msPerDay ≤ (mkTrade halfBar "BTC-USDT" 0 0).startTime ∧
    (mkTrade halfBar "BTC-USDT" 0 0).startTime ≤ 0 - 6 * msPerDay ∧
    (mkTrade halfBar "BTC-USDT" 0 0).endTime ≤ 0 + msPerDay :=
  barTrade_window halfBar "BTC-USDT" 0
    ⟨by norm_num [halfBar], fun t => by norm_num [halfBar]⟩ _
    (mem_generateBarData_of_lt halfBar "BTC-USDT" 0 0 (by norm_num [numTrades, halfBar]))

/-- C8: for valid draws the per-step factor is strictly positive, the
running price stays strictly positive through every step, and every stored
(2-decimal-rounded) price in the generated sequence is strictly positive. -/
theorem generateTradingData_price_pos (d : TSDraws) (pair : String) (now : ℤ)
    (hv : d.Valid) :
    (∀ i : ℕ, 0 < 1 + change d i) ∧
    (∀ n : ℕ, 0 < runningPrice d (basePrice pair) n) ∧
    ∀ pt ∈ generateTradingData d pair now, 0 < pt.price := by
  refine ⟨?_, runningPrice_pos d hv pair, ?_⟩
  · intro i
    have := one_add_change_lower d hv i
    linarith
  · intro pt hpt
    obtain ⟨i, hi, rfl⟩ := (mem_generateTradingData_iff d pair now pt).mp hpt
    show 0 < round2 (runningPrice d (basePrice pair) (i + 1))
    exact round2_pos _ (runningPrice_ge_threshold d hv pair (i + 1) (by omega))

/-- C8 witness: positivity of a concrete stored price under a concrete
valid draw assignment. -/
theorem generateTradingData_price_pos_witness :
    0 < (mkPricePoint halfTS "BTC-USDT" 0 0).price :=
  (generateTradingData_price_pos halfTS "BTC-USDT" 0
    ⟨by norm_num [halfTS], fun i => by norm_num [halfTS]⟩).2.2 _
    (mem_generateTradingData_of_lt halfTS "BTC-USDT" 0 0 (by norm_num))
